import Mathlib

/-!
Verification of the binary-increment Turing machine
(`turing_machine.py`, `test_turing_machine.py`).

The data model follows the Python class `TuringMachine`: a tape of
one-character symbol strings, a head position, a current state label, a
transition table mapping (state, symbol) pairs to (state, symbol,
direction) triples, a halted flag and a step counter.  The Python
methods `step`, `reset` and the test helper `get_binary_number` are
embedded below.  A tape read out of bounds would raise in Python, so
`step` returns an `Option`: `none` models the exception path and
`some (b, m)` models a normal return of boolean `b` with successor
state `m`.
-/

set_option maxHeartbeats 1000000

structure TuringMachine where
  tape : List String
  head_position : Nat
  current_state : String
  transitions : List ((String × String) × (String × String × String))
  halted : Bool
  step_count : Nat
  deriving DecidableEq, Repr

/-- The fixed transition table built in `TuringMachine.__init__`
(binary increment: states start, carry, write1, halt). -/
def incrTransitions : List ((String × String) × (String × String × String)) :=
  [ (("start", "0"), ("start", "0", "R")),
    (("start", "1"), ("start", "1", "R")),
    (("start", "_"), ("carry", "_", "L")),
    (("carry", "0"), ("write1", "1", "N")),
    (("carry", "1"), ("carry", "0", "L")),
    (("carry", "_"), ("write1", "1", "N")),
    (("write1", "0"), ("halt", "1", "N")),
    (("write1", "1"), ("halt", "1", "N")),
    (("write1", "_"), ("halt", "1", "N")) ]

/-- The construction-time machine state (`TuringMachine.__init__`):
tape `[_,1,0,1,1,_,_,_]`, head at index 1, state start, not halted,
step count 0. -/
def initMachine : TuringMachine :=
  { tape := ["_", "1", "0", "1", "1", "_", "_", "_"]
    head_position := 1
    current_state := "start"
    transitions := incrTransitions
    halted := false
    step_count := 0 }

namespace TuringMachine

/-- One step of the machine (`TuringMachine.step`).  `none` models the
Python exception raised by an out-of-bounds tape read; `some (b, m)`
models a normal return of `b` with post-state `m`. -/
def step (m : TuringMachine) : Option (Bool × TuringMachine) :=
  if m.halted = true ∨ m.current_state = "halt" then
    some (false, { m with halted := true })
  else
    match m.tape[m.head_position]? with
    | none => none
    | some current_symbol =>
      match m.transitions.lookup (m.current_state, current_symbol) with
      | none => some (false, { m with halted := true })
      | some (new_state, write_symbol, direction) =>
        let tape1 := m.tape.set m.head_position write_symbol
        let newHead :=
          if direction = "L" then m.head_position - 1
          else if direction = "R" then min (tape1.length - 1) (m.head_position + 1)
          else m.head_position
        let tape2 :=
          if direction = "R" ∧ tape1.length - 1 ≤ newHead then tape1 ++ ["_"]
          else tape1
        some (true, { m with
          tape := tape2
          head_position := newHead
          current_state := new_state
          step_count := m.step_count + 1 })

/-- `TuringMachine.reset`: restore tape, head and state to the
construction-time literals, clear `halted`, zero `step_count`. -/
def reset (m : TuringMachine) : TuringMachine :=
  { m with
    tape := ["_", "1", "0", "1", "1", "_", "_", "_"]
    head_position := 1
    current_state := "start"
    halted := false
    step_count := 0 }

end TuringMachine

/-- Loop body of `get_binary_number`: walk the tape, accumulate digits,
stop at the first blank seen after at least one digit. -/
def extractDigits : List String → Bool → List String → List String
  | [], _, acc => acc
  | s :: rest, found, acc =>
    if s = "0" ∨ s = "1" then extractDigits rest true (acc ++ [s])
    else if found = true ∧ s = "_" then acc
    else extractDigits rest found acc

/-- `TuringMachine.get_binary_number` from the test file: extract the
contiguous digit run from a tape as a string. -/
def get_binary_number (tape : List String) : String :=
  String.join (extractDigits tape false [])

/-- Drive the machine like the test loop `while machine.step()`: call
`step` until it returns false, giving back the machine state at that
point.  `none` when the fuel runs out or a step raises. -/
def run : Nat → TuringMachine → Option TuringMachine
  | 0, _ => none
  | fuel + 1, m =>
    match TuringMachine.step m with
    | none => none
    | some (false, m1) => some m1
    | some (true, m1) => run fuel m1

/-- A machine as the tests build one: constructed, then its tape
replaced (`machine.tape = initial_tape.copy()`). -/
def mkMachine (t : List String) : TuringMachine :=
  { initMachine with tape := t }

/-- Binary digits of a positive number, most significant first, as
one-character strings; fuel-driven so that it evaluates by kernel
reduction. -/
def binDigitsAux : Nat → Nat → List String
  | 0, _ => []
  | fuel + 1, n =>
    if n = 0 then []
    else binDigitsAux fuel (n / 2) ++ [if n % 2 = 1 then "1" else "0"]

/-- Binary digit list of a natural number, most significant first. -/
def binDigits (n : Nat) : List String :=
  if n = 0 then ["0"] else binDigitsAux n n

/-- The binary representation of a natural number as a string. -/
def binRep (n : Nat) : String :=
  String.join (binDigits n)

/-- Initial tape for input `n`: a blank, the binary digits of `n` most
significant first, then trailing blanks. -/
def initTape (n : Nat) : List String :=
  "_" :: binDigits n ++ ["_", "_", "_"]

/-- Machine states reachable from construction through `step` and
`reset` calls: the construction-time state is reachable, a successful
`step` preserves reachability, and so does `reset`. -/
inductive Reachable : TuringMachine → Prop where
  | construction : Reachable initMachine
  | of_step : ∀ {m : TuringMachine} {b : Bool} {m1 : TuringMachine},
      Reachable m → TuringMachine.step m = some (b, m1) → Reachable m1
  | of_reset : ∀ {m : TuringMachine},
      Reachable m → Reachable (TuringMachine.reset m)

/-- A completed `step` call keeps the head inside the tape. -/
theorem head_position_lt_of_step (m m1 : TuringMachine) (b : Bool)
    (hinv : m.head_position < m.tape.length)
    (h : TuringMachine.step m = some (b, m1)) :
    m1.head_position < m1.tape.length := by
  unfold TuringMachine.step at h
  split at h
  · simp at h
    obtain ⟨rfl, rfl⟩ := h
    exact hinv
  · split at h
    · simp at h
    · split at h
      · simp at h
        obtain ⟨rfl, rfl⟩ := h
        exact hinv
      · simp at h
        obtain ⟨rfl, rfl⟩ := h
        split_ifs <;> simp_all [List.length_set] <;> omega

/-- C1: for every n with 0 ≤ n ≤ 63, starting the machine on the tape
made of a blank, the binary digits of n most significant first and
trailing blanks, with the head on the first digit and state start, the
step loop terminates (within fuel 100) and the digit run extracted by
get_binary_number equals the binary representation of n + 1. -/
theorem binary_increment_roundtrip (n : Nat) (h : n ≤ 63) :
    (run 100 (mkMachine (initTape n))).map (fun m => get_binary_number m.tape) =
      some (binRep (n + 1)) := by
  have h64 : n < 64 := Nat.lt_succ_of_le h
  exact (by decide : ∀ k, k < 64 →
    (run 100 (mkMachine (initTape k))).map (fun m => get_binary_number m.tape) =
      some (binRep (k + 1))) n h64

/-- Witness for C1 at n = 11. -/
theorem binary_increment_roundtrip_witness :
    11 ≤ 63 ∧
    (run 100 (mkMachine (initTape 11))).map (fun m => get_binary_number m.tape) =
      some (binRep (11 + 1)) :=
  ⟨by decide, binary_increment_roundtrip 11 (by decide)⟩

/-- C2: the head invariant 0 ≤ head_position < length(tape) holds in
every reachable machine state: at construction, after every completed
step call and after every reset call. -/
theorem reachable_head_in_bounds (m : TuringMachine) (h : Reachable m) :
    0 ≤ m.head_position ∧ m.head_position < m.tape.length := by
  induction h with
  | construction => exact ⟨Nat.zero_le _, by decide⟩
  | of_step hr hs ih => exact ⟨Nat.zero_le _, head_position_lt_of_step _ _ _ ih.2 hs⟩
  | of_reset hr ih => exact ⟨Nat.zero_le _, by simp [TuringMachine.reset]⟩

/-- Witness for C2 at the construction-time state. -/
theorem reachable_head_in_bounds_witness :
    Reachable initMachine ∧
    0 ≤ initMachine.head_position ∧
      initMachine.head_position < initMachine.tape.length :=
  ⟨Reachable.construction, reachable_head_in_bounds initMachine Reachable.construction⟩

/-- C3: once a step call returns false, the next step call again
returns false with the very same state, and that state carries the
tape, head position, current state and step count of the state the
false-returning call started from. -/
theorem halted_step_idempotent (m m1 : TuringMachine)
    (h : TuringMachine.step m = some (false, m1)) :
    TuringMachine.step m1 = some (false, m1) ∧ m1.tape = m.tape ∧
      m1.head_position = m.head_position ∧ m1.current_state = m.current_state ∧
      m1.step_count = m.step_count := by
  unfold TuringMachine.step at h
  split at h
  · simp at h
    subst h
    refine ⟨?_, rfl, rfl, rfl, rfl⟩
    simp [TuringMachine.step]
  · split at h
    · simp at h
    · split at h
      · simp at h
        subst h
        refine ⟨?_, rfl, rfl, rfl, rfl⟩
        simp [TuringMachine.step]
      · simp at h

/-- Witness for C3 at a halted machine. -/
theorem halted_step_idempotent_witness :
    TuringMachine.step { initMachine with halted := true } =
      some (false, { initMachine with halted := true }) ∧
    ({ initMachine with halted := true } : TuringMachine).tape =
      ({ initMachine with halted := true } : TuringMachine).tape ∧
    ({ initMachine with halted := true } : TuringMachine).head_position =
      ({ initMachine with halted := true } : TuringMachine).head_position ∧
    ({ initMachine with halted := true } : TuringMachine).current_state =
      ({ initMachine with halted := true } : TuringMachine).current_state ∧
    ({ initMachine with halted := true } : TuringMachine).step_count =
      ({ initMachine with halted := true } : TuringMachine).step_count :=
  halted_step_idempotent { initMachine with halted := true }
    { initMachine with halted := true } (by decide)

/-- C4: on a non-halted machine whose current state is not the terminal
state and whose (state, read symbol) pair is absent from the table,
step returns false and only sets the halted flag: tape, head, state and
step count stay untouched and no exception is raised. -/
theorem undefined_transition_rejects (m : TuringMachine) (sym : String)
    (h1 : m.halted = false) (h2 : m.current_state ≠ "halt")
    (h3 : m.tape[m.head_position]? = some sym)
    (h4 : m.transitions.lookup (m.current_state, sym) = none) :
    TuringMachine.step m = some (false, { m with halted := true }) := by
  simp [TuringMachine.step, h1, h2, h3, h4]

/-- Witness for C4 at a machine put in a state absent from the table. -/
theorem undefined_transition_rejects_witness :
    TuringMachine.step { initMachine with current_state := "bogus" } =
      some (false, { initMachine with current_state := "bogus", halted := true }) :=
  undefined_transition_rejects { initMachine with current_state := "bogus" } "1"
    (by decide) (by decide) (by decide) (by decide)

/-- C5: reset always restores the construction-time tape, head position
and state, clears the halted flag and zeroes the step counter,
whatever the machine state it is applied to. -/
theorem reset_restores_construction_state (m : TuringMachine) :
    (TuringMachine.reset m).tape = initMachine.tape ∧
    (TuringMachine.reset m).head_position = initMachine.head_position ∧
    (TuringMachine.reset m).current_state = initMachine.current_state ∧
    (TuringMachine.reset m).halted = false ∧
    (TuringMachine.reset m).step_count = 0 :=
  ⟨rfl, rfl, rfl, rfl, rfl⟩

/-- C6: a step whose transition moves Right puts the head at
min(length(tape) - 1, head + 1); exactly one blank is appended when
that position is the last valid index of the old tape and the tape is
unchanged in length otherwise; either way the new head lands strictly
below length(tape) - 1, leaving a blank sentinel beyond it. -/
theorem right_move_extends_tape (m m1 : TuringMachine) (sym ns ws : String)
    (h3 : m.tape[m.head_position]? = some sym)
    (h4 : m.transitions.lookup (m.current_state, sym) = some (ns, ws, "R"))
    (h5 : TuringMachine.step m = some (true, m1)) :
    m1.head_position = min (m.tape.length - 1) (m.head_position + 1) ∧
    (m1.head_position = m.tape.length - 1 →
      m1.tape = m.tape.set m.head_position ws ++ ["_"]) ∧
    (m1.head_position < m.tape.length - 1 →
      m1.tape = m.tape.set m.head_position ws) ∧
    m1.head_position < m1.tape.length - 1 := by
  have hlt : m.head_position < m.tape.length := by
    by_contra hc
    rw [List.getElem?_eq_none_iff.mpr (le_of_not_lt hc)] at h3
    exact Option.noConfusion h3
  simp only [TuringMachine.step, h3, h4] at h5
  split at h5
  · simp at h5
  · simp at h5
    obtain ⟨rfl⟩ := h5
    simp only [List.length_set]
    split_ifs with hc
    all_goals refine ⟨by simp, ?_, ?_, ?_⟩
    all_goals simp_all [List.length_set]
    all_goals omega

/-- Witness for C6 at the construction-time state, whose first step is
a Right move. -/
theorem right_move_extends_tape_witness :
    ({ initMachine with head_position := 2, step_count := 1 } :
        TuringMachine).head_position =
      min (initMachine.tape.length - 1) (initMachine.head_position + 1) ∧
    (({ initMachine with head_position := 2, step_count := 1 } :
        TuringMachine).head_position = initMachine.tape.length - 1 →
      ({ initMachine with head_position := 2, step_count := 1 } :
        TuringMachine).tape =
        initMachine.tape.set initMachine.head_position "1" ++ ["_"]) ∧
    (({ initMachine with head_position := 2, step_count := 1 } :
        TuringMachine).head_position < initMachine.tape.length - 1 →
      ({ initMachine with head_position := 2, step_count := 1 } :
        TuringMachine).tape =
        initMachine.tape.set initMachine.head_position "1") ∧
    ({ initMachine with head_position := 2, step_count := 1 } :
        TuringMachine).head_position <
      ({ initMachine with head_position := 2, step_count := 1 } :
        TuringMachine).tape.length - 1 :=
  right_move_extends_tape initMachine
    { initMachine with head_position := 2, step_count := 1 } "1" "start" "1"
    (by decide) (by decide) (by decide)

/-- C7: a completed step call never shrinks the tape: its length after
the call is at least its length before. -/
theorem tape_length_monotone (m m1 : TuringMachine) (b : Bool)
    (h : TuringMachine.step m = some (b, m1)) :
    m.tape.length ≤ m1.tape.length := by
  unfold TuringMachine.step at h
  split at h
  · simp at h
    obtain ⟨rfl, rfl⟩ := h
    simp
  · split at h
    · simp at h
    · split at h
      · simp at h
        obtain ⟨rfl, rfl⟩ := h
        simp
      · simp at h
        obtain ⟨rfl, rfl⟩ := h
        split_ifs <;> simp [List.length_set]

/-- Witness for C7 at the construction-time state. -/
theorem tape_length_monotone_witness :
    initMachine.tape.length ≤
      ({ initMachine with head_position := 2, step_count := 1 } :
        TuringMachine).tape.length :=
  tape_length_monotone initMachine
    { initMachine with head_position := 2, step_count := 1 } true (by decide)

/-- C8 counterexample: in the reference scenario the run does extract
the digit run 1100, but the final step count is 9, not 7 as claimed. -/
theorem reference_scenario_counterexample :
    (run 100 initMachine).map
        (fun m => (get_binary_number m.tape, m.step_count)) =
      some ("1100", 9) ∧
    ¬((run 100 initMachine).map TuringMachine.step_count = some 7) :=
  ⟨by decide, by decide⟩

/-- C8 amended: in the reference scenario (tape [_,1,0,1,1,_,_,_], head
at index 1, state start), running step until it returns false halts
with extracted digit run 1100 and step count 9. -/
theorem reference_scenario_amended :
    (run 100 initMachine).map
        (fun m => (get_binary_number m.tape, m.step_count)) =
      some ("1100", 9) := by decide

/-- C9: on any state satisfying the head invariant, step completes
normally: the tape read is in bounds and every other situation is
handled by halting or clamping, never by an exception. -/
theorem step_total_in_bounds (m : TuringMachine)
    (h : m.head_position < m.tape.length) :
    (TuringMachine.step m).isSome = true := by
  unfold TuringMachine.step
  split
  · rfl
  · split
    · rename_i heq
      rw [List.getElem?_eq_none_iff] at heq
      omega
    · split
      · rfl
      · rfl

/-- Witness for C9 at the construction-time state. -/
theorem step_total_in_bounds_witness :
    (TuringMachine.step initMachine).isSome = true :=
  step_total_in_bounds initMachine (by decide)

/-- C10: the boolean a completed step call returns is the negation of
the halted flag right after the call; in particular the call that
transitions into the terminal state returns true with the flag still
false. -/
theorem step_returns_not_halted (m m1 : TuringMachine) (b : Bool)
    (h : TuringMachine.step m = some (b, m1)) : b = !m1.halted := by
  unfold TuringMachine.step at h
  split at h
  · simp at h
    obtain ⟨rfl, rfl⟩ := h
    rfl
  · rename_i hcond
    split at h
    · simp at h
    · split at h
      · simp at h
        obtain ⟨rfl, rfl⟩ := h
        rfl
      · simp at h
        obtain ⟨rfl, rfl⟩ := h
        simp at hcond
        simp [hcond.1]

/-- Witness for C10 at a machine one transition away from the terminal
state: the step into the halt state returns true while the halted flag
stays false. -/
theorem step_returns_not_halted_witness :
    (true : Bool) =
      !({ initMachine with current_state := "halt", step_count := 1 } :
          TuringMachine).halted :=
  step_returns_not_halted { initMachine with current_state := "write1" }
    { initMachine with current_state := "halt", step_count := 1 } true (by decide)
